import Mathlib

/-!
Shallow embedding of the task-queue coordinator and learning pipeline of the
`exec` repository, together with theorems settling the spec claims.

Conventions used throughout:
* JavaScript strings are modelled by `String` (code points; the sources only
  manipulate ASCII text where the distinction could matter).
* JavaScript numbers are modelled by `ℚ` (the arithmetic in scope is
  `+`, `-`, `Math.min`, `Math.max` and comparisons).
* `undefined`/`null` optional values are modelled by `Option`.
* Calls into external collaborators (the language model, `JSON.parse`,
  regular-expression engines on free-form model output, the id generator)
  are passed in as explicit function/value parameters, so the embedded
  functions are pure and total.
* Store writes are reified as explicit transaction values so that theorems
  can quantify over everything a function writes.
-/

namespace Exec

/-! ## String helpers (JS `String.prototype.includes` / `toLowerCase`) -/

/-- Predicate `leadsChars needle l` : `needle` is an initial segment of `l`. -/
def leadsChars : List Char → List Char → Bool
  | [], _ => true
  | _ :: _, [] => false
  | a :: as, b :: bs => a == b && leadsChars as bs

/-- Predicate `hasSubChars needle l` : `needle` occurs contiguously somewhere in `l`. -/
def hasSubChars (needle : List Char) : List Char → Bool
  | [] => needle.isEmpty
  | c :: rest => leadsChars needle (c :: rest) || hasSubChars needle rest

/-- JS `hay.includes(needle)`. -/
def strIncludes (hay needle : String) : Bool :=
  hasSubChars needle.toList hay.toList

/-- JS `s.toLowerCase()` (ASCII case folding). -/
def lowerStr (s : String) : String :=
  String.mk (s.toList.map Char.toLower)

/-! ## Error Classifier (`voice-listener/src/error-categories.ts`) -/

inductive ErrorCategory where
  | timeout
  | crash
  | oom
  | rate_limit
  | permission_denied
  | dependency_error
  | cancelled
  | unknown
deriving DecidableEq, Repr

inductive ErrConfidence where
  | high
  | medium
  | low
deriving DecidableEq, Repr

/-- Timeout signal: exit code 124 from the `timeout` command, or explicit
message.  `s` is the already-lowercased stderr text. -/
def timeoutSignal (exitCode : Int) (s : String) : Bool :=
  exitCode == 124 || strIncludes s "timed out" || strIncludes s "timeout"

/-- OOM signal: exit code 137 (killed by OOM), or explicit message. -/
def oomSignal (exitCode : Int) (s : String) : Bool :=
  exitCode == 137 || strIncludes s "out of memory" || strIncludes s "oom"

/-- Rate-limiting phrases. -/
def rateLimitSignal (s : String) : Bool :=
  strIncludes s "rate limit" || strIncludes s "429" ||
    strIncludes s "too many requests" || strIncludes s "overloaded"

/-- Permission-denied phrases. -/
def permissionSignal (s : String) : Bool :=
  strIncludes s "eacces" || strIncludes s "permission denied" ||
    strIncludes s "access denied"

/-- Dependency/file-not-found phrases. -/
def dependencySignal (s : String) : Bool :=
  strIncludes s "enoent" || strIncludes s "not found" ||
    strIncludes s "no such file" || strIncludes s "module not found" ||
    strIncludes s "cannot find module"

/-- Function `classifyError(exitCode, stderr, wasCancelled)` from
`error-categories.ts`: classify an error based on exit code and stderr. -/
def classifyError (exitCode : Int) (stderr : String) (wasCancelled : Bool) :
    ErrorCategory × ErrConfidence :=
  let s := lowerStr stderr
  if wasCancelled then (.cancelled, .high)
  else if timeoutSignal exitCode s then (.timeout, .high)
  else if oomSignal exitCode s then (.oom, .high)
  else if rateLimitSignal s then (.rate_limit, .high)
  else if permissionSignal s then (.permission_denied, .high)
  else if dependencySignal s then (.dependency_error, .medium)
  else if exitCode != 0 then (.crash, .low)
  else (.unknown, .low)

/-! ## Complexity Classifier (`voice-listener/src/scope-analyzer.ts`)

The classifier applies fixed regular expressions to the free text of the task.
Each regular expression of the source is compiled by hand into a decidable
matcher over the list of characters; `\s` is modelled by the ASCII
whitespace characters, `.` by "any character except newline", `\b` by the
usual word/non-word boundary, and all `/i` patterns are matched against the
lowercased text (the patterns themselves contain no uppercase letters). -/

/-- ASCII part of the JS `\s` character class. -/
def isWs (c : Char) : Bool :=
  c == ' ' || c == '\t' || c == '\n' || c == '\r' || c == '\x0b' || c == '\x0c'

/-- JS `\w` word characters `[A-Za-z0-9_]`. -/
def isWordCh (c : Char) : Bool :=
  c.isAlphanum || c == '_'

/-- Character at index `i`, if any. -/
def charAt (l : List Char) (i : Nat) : Option Char :=
  l.get? i

/-- The slice `l[i..j)`. -/
def sliceL (l : List Char) (i j : Nat) : List Char :=
  (l.drop i).take (j - i)

/-- The literal `lit` occurs starting at index `i` of `l`. -/
def litAt (l : List Char) (i : Nat) (lit : String) : Bool :=
  leadsChars lit.toList (l.drop i)

/-- Boundary `\b` just before index `i`: holds when `i` is the start of `l` or the
previous character is a non-word character. -/
def nonWordBefore (l : List Char) (i : Nat) : Bool :=
  i == 0 ||
    (match charAt l (i - 1) with
     | some c => !isWordCh c
     | none => true)

/-- Boundary `\b` just before index `i` looking right from a word character:
index `i` is past the end of `l` or holds a non-word character. -/
def nonWordAtOrEnd (l : List Char) (i : Nat) : Bool :=
  match charAt l i with
  | some c => !isWordCh c
  | none => true

/-- Consume `\s+` with maximal munch: at least one whitespace character,
then all following whitespace.  (Used only where the next pattern atom
cannot match whitespace, so maximal munch is complete.) -/
def wsPlus : List Char → Option (List Char)
  | c :: rest => if isWs c then some (rest.dropWhile isWs) else none
  | [] => none

/-- All remainders obtained by consuming one of the literal alternatives. -/
def altRemainders (alts : List String) (l : List Char) : List (List Char) :=
  alts.filterMap fun w =>
    if leadsChars w.toList l then some (l.drop w.toList.length) else none

/-- Holds when `gap` decomposes as `\s+`, then at least `minMid` non-newline
characters, then `\s+` (the shape of `\s+.{n,}\s+` between two literals). -/
def wsGapOk (minMid : Nat) (gap : List Char) : Bool :=
  (List.range (gap.length + 1)).any fun a =>
    (List.range (gap.length + 1)).any fun c =>
      1 ≤ a && 1 ≤ c && a + c + minMid ≤ gap.length &&
        (gap.take a).all isWs &&
        ((gap.drop a).take (gap.length - a - c)).all (fun ch => ch != '\n') &&
        (gap.drop (gap.length - c)).all isWs

/-- Matcher for `/research\s+(then|and then|before)\s+(build|implement|create)/i`. -/
def multiPhase1 (l : List Char) : Bool :=
  (List.range (l.length + 1)).any fun i =>
    litAt l i "research" &&
      (match wsPlus (l.drop (i + 8)) with
       | none => false
       | some r2 =>
         (altRemainders ["then", "and then", "before"] r2).any fun r3 =>
           match wsPlus r3 with
           | none => false
           | some r4 =>
             ["build", "implement", "create"].any fun w =>
               leadsChars w.toList r4)

/-- Matcher for `/first\s+.{5,}\s+then\s+/i`. -/
def multiPhase2 (l : List Char) : Bool :=
  (List.range (l.length + 1)).any fun i =>
    (List.range (l.length + 1)).any fun j =>
      litAt l i "first" && litAt l j "then" && i + 5 ≤ j &&
        wsGapOk 5 (sliceL l (i + 5) j) &&
        (match charAt l (j + 4) with
         | some c => isWs c
         | none => false)

/-- Matcher for `/phase\s*[12]/i`. -/
def multiPhase3 (l : List Char) : Bool :=
  (List.range (l.length + 1)).any fun i =>
    litAt l i "phase" &&
      (match (l.drop (i + 5)).dropWhile isWs with
       | c :: _ => c == '1' || c == '2'
       | [] => false)

/-- Matcher for `step\s*[d]\b` starting at index `i`; returns the index just past the
digit when it matches. -/
def stepEnd (l : List Char) (i : Nat) (d : Char) : Option Nat :=
  if litAt l i "step" then
    let k := ((l.drop (i + 4)).takeWhile isWs).length
    if charAt l (i + 4 + k) == some d && nonWordAtOrEnd l (i + 5 + k) then
      some (i + 5 + k)
    else none
  else none

/-- Matcher for `/step\s*1\b[\s\S]*step\s*2\b/i`. -/
def multiPhase4 (l : List Char) : Bool :=
  (List.range (l.length + 1)).any fun i =>
    (List.range (l.length + 1)).any fun j =>
      match stepEnd l i '1' with
      | some e => e ≤ j && (stepEnd l j '2').isSome
      | none => false

/-- The word `and` with `\b` on both sides, starting at index `i`. -/
def wordAndAt (l : List Char) (i : Nat) : Bool :=
  litAt l i "and" && nonWordBefore l i && nonWordAtOrEnd l (i + 3)

/-- Matcher for `/\band\b.*\band\b/i` — two occurrences of the word `and` with only
non-newline characters between them. -/
def deliverables1 (l : List Char) : Bool :=
  (List.range (l.length + 1)).any fun i =>
    (List.range (l.length + 1)).any fun j =>
      wordAndAt l i && wordAndAt l j && i + 3 ≤ j &&
        (sliceL l (i + 3) j).all (fun c => c != '\n')

/-- Matcher for `/\d+\.\s+.+\n\d+\.\s+/m` — a numbered list with two items. -/
def deliverables2 (l : List Char) : Bool :=
  (List.range (l.length + 1)).any fun p =>
    (List.range (l.length + 1)).any fun j =>
      (List.range (l.length + 2)).any fun m =>
        (match charAt l p with
         | some c => c.isDigit
         | none => false) &&
        charAt l (p + 1) == some '.' &&
        p + 2 ≤ j && charAt l j == some '\n' &&
        (let gap := sliceL l (p + 2) j
         (List.range (gap.length + 1)).any fun a =>
           1 ≤ a && a + 1 ≤ gap.length && (gap.take a).all isWs &&
             (gap.drop a).all (fun c => c != '\n')) &&
        j + 2 ≤ m && !(sliceL l (j + 1) m).isEmpty &&
        (sliceL l (j + 1) m).all Char.isDigit &&
        charAt l m == some '.' &&
        (match charAt l (m + 1) with
         | some c => isWs c
         | none => false)

/-- Matcher for `/both\s+.+\s+and\s+/i`. -/
def deliverables3 (l : List Char) : Bool :=
  (List.range (l.length + 1)).any fun i =>
    (List.range (l.length + 1)).any fun j =>
      litAt l i "both" && litAt l j "and" && i + 4 ≤ j &&
        wsGapOk 1 (sliceL l (i + 4) j) &&
        (match charAt l (j + 3) with
         | some c => isWs c
         | none => false)

/-- Embeds `MULTI_PHASE_PATTERNS.some((p) => p.test(text))`. -/
def multiPhaseHit (text : String) : Bool :=
  let l := (lowerStr text).toList
  multiPhase1 l || multiPhase2 l || multiPhase3 l || multiPhase4 l

/-- Embeds `MULTIPLE_DELIVERABLES.some((p) => p.test(text))`. -/
def deliverablesHit (text : String) : Bool :=
  let l := (lowerStr text).toList
  deliverables1 l || deliverables2 l || deliverables3 l

/-- Constant `ORCHESTRATION_KEYWORDS` from `scope-analyzer.ts`. -/
def ORCHESTRATION_KEYWORDS : List String :=
  ["integrate", "migration", "full-stack", "fullstack", "end-to-end",
   "microservice", "multi-service", "redesign", "overhaul",
   "rewrite from scratch", "rebuild"]

/-- Embeds `ORCHESTRATION_KEYWORDS.some((kw) => text.toLowerCase().includes(kw))`. -/
def orchestrationHit (text : String) : Bool :=
  ORCHESTRATION_KEYWORDS.any fun kw => strIncludes (lowerStr text) kw

inductive TaskScope where
  | simple
  | complex
deriving DecidableEq, Repr

/-- The text `` `${title} ${description ?? ""}` `` as built by `analyzeScope`. -/
def textOf (title : String) (description : Option String) : String :=
  title ++ " " ++ description.getD ""

/-- The "moderate signals" counter of `analyzeScope` (the three `signals++`
checks). -/
def moderateSignals (ty : String) (subtype : Option String) (title : String)
    (description : Option String) : Nat :=
  (if ty == "CodeChange" && subtype == some "feature" &&
      (description.getD "").length > 150 then 1 else 0) +
  (if orchestrationHit (textOf title description) then 1 else 0) +
  (if (description.getD "").length > 300 then 1 else 0)

/-- `analyzeScope(type, subtype, title, description)` from
`scope-analyzer.ts`: heuristic complexity classification, pure pattern
matching. -/
def analyzeScope (ty : String) (subtype : Option String) (title : String)
    (description : Option String) : TaskScope :=
  let text := textOf title description
  let descLength := (description.getD "").length
  if ty == "Project" then .complex
  else if multiPhaseHit text then .complex
  else if descLength > 500 then .complex
  else if deliverablesHit text then .complex
  else if ty == "Research" then .simple
  else if ty == "Write" then .simple
  else if ty == "UserTask" then .simple
  else if ty == "CodeChange" && subtype == some "bug" && descLength < 200 then
    .simple
  else if moderateSignals ty subtype title description ≥ 2 then .complex
  else .simple

/-! ## Rule Selector (`voice-listener/src/rule-selector.ts`)

`inferProjectType` (directory signals: reads `package.json`, `README.md`,
`CLAUDE.md` under the project path) and `inferProjectTypeFromAction`
(free-text heuristics over the own fields of the task) are filesystem/heuristic
oracles passed in as function parameters; the control flow of the selector over
them is embedded exactly. -/

/-- JS truthiness of a `string | null | undefined` value: `null`,
`undefined` and the empty string are falsy. -/
def strTruthy : Option String → Bool
  | none => false
  | some s => !(s == "")

/-- The result of the project-type determination step of
`selectRelevantRules` (lines 61–68), together with which of the two
inference sources were actually invoked during the call. -/
structure ProjectTypeCall where
  result : Option String
  usedPathSignals : Bool
  usedTextHeuristics : Bool
deriving DecidableEq, Repr

/-- Lines 61–68 of `rule-selector.ts`:
`let projectType = null; if (projectPath) projectType =
inferProjectType(projectPath); if (!projectType) projectType =
inferProjectTypeFromAction(actionType, actionTitle, actionDescription);` -/
def determineProjectType (inferFromPath : String → Option String)
    (inferFromAction : String → String → Option String → Option String)
    (actionType actionTitle : String) (actionDescription : Option String)
    (projectPath : Option String) : ProjectTypeCall :=
  let pathResult : Option String :=
    match projectPath with
    | some p => if p == "" then none else inferFromPath p
    | none => none
  let usedPath : Bool := strTruthy projectPath
  if strTruthy pathResult then
    { result := pathResult, usedPathSignals := usedPath,
      usedTextHeuristics := false }
  else
    { result := inferFromAction actionType actionTitle actionDescription,
      usedPathSignals := usedPath, usedTextHeuristics := true }

/-- A rule row as stored (the fields read by the selector; the JSON-encoded
`conflictsWith` text is kept as raw text as in the store). -/
structure StoreRule where
  id : String
  content : String
  scope : String
  scopeQualifier : Option String
  category : String
  confidence : ℚ
  active : Bool
  conflictsWith : Option String
deriving DecidableEq, Repr

/-- The projection pushed into `matched` (interface `SelectedRule`). -/
structure SelectedRule where
  id : String
  content : String
  confidence : ℚ
  scope : String
  category : String
deriving DecidableEq, Repr

def MAX_RULES : Nat := 15

/-- The per-rule `include` decision of `selectRelevantRules`
(lines 73–97). -/
def includeRule (projectType projectPath : Option String)
    (r : StoreRule) : Bool :=
  if r.scope == "global" && decide ((7 : ℚ)/10 ≤ r.confidence) then true
  else if r.scope == "project-type" && decide ((5 : ℚ)/10 ≤ r.confidence) then
    strTruthy projectType && r.scopeQualifier == projectType
  else if r.scope == "project-specific" then
    strTruthy projectPath && r.scopeQualifier == projectPath
  else false

/-- Descending-confidence comparator
(`matched.sort((a, b) => b.confidence - a.confidence)`). -/
def ruleDesc (a b : StoreRule) : Bool :=
  decide (b.confidence ≤ a.confidence)

/-- The `matched` list: all active rules passing the scope filter.  (The
store query already filters `active: true`; the filter is made explicit
here so the function can take the raw rules list.) -/
def matchedRules (allRules : List StoreRule)
    (projectType projectPath : Option String) : List StoreRule :=
  (allRules.filter (·.active)).filter (includeRule projectType projectPath)

/-- The `matched` list sorted by confidence descending and capped at `MAX_RULES`. -/
def selectedRules (allRules : List StoreRule)
    (projectType projectPath : Option String) : List StoreRule :=
  ((matchedRules allRules projectType projectPath).mergeSort ruleDesc).take
    MAX_RULES

/-- The field projection pushed into `matched`. -/
def toSelectedRule (r : StoreRule) : SelectedRule :=
  { id := r.id, content := r.content, confidence := r.confidence,
    scope := r.scope, category := r.category }

/-- The `rules` component of the `selectRelevantRules` result for a given
store snapshot and already-determined project type. -/
def selectRelevantRules (allRules : List StoreRule)
    (projectType projectPath : Option String) : List SelectedRule :=
  (selectedRules allRules projectType projectPath).map toSelectedRule

/-! ## Rule Distillation Engine (`voice-listener/src/distillation-engine.ts`)

`runDistillation` queries the undistilled episodes and the active rules,
calls the synthesis model once, and turns its parsed response into one
batch of store writes.  The synthesis call (`callClaudeForDistillation`,
returning raw text or null) and `JSON.parse` are passed in as parameters;
the id generator for new rules is a parameter applied to the index of the
new rule within the response.  JSON-encoded list fields
(`sourceEpisodeIds`, `tags`) are modelled as lists. -/

/-- An undistilled episode row (the fields beyond `id` feed only the
prompt text, which is not modelled). -/
structure DEpisode where
  id : String
  narrative : String
  feedbackType : String
deriving DecidableEq, Repr

/-- An active rule row as read by the distillation engine. -/
structure DRule where
  id : String
  content : String
  scope : String
  scopeQualifier : Option String
  category : String
  confidence : ℚ
  sourceEpisodeIds : List String
  supportCount : Int
  conflictsWith : Option String
deriving DecidableEq, Repr

/-- Interface `NewRuleFromClaude`. -/
structure NewRuleFromClaude where
  content : String
  scope : String
  scopeQualifier : Option String
  category : String
  tags : List String
  confidence : ℚ
  sourceEpisodeIds : List String
  supportCount : Int
deriving DecidableEq, Repr

/-- Interface `UpdatedRuleFromClaude`. -/
structure UpdatedRuleFromClaude where
  ruleId : String
  confidenceDelta : ℚ
  newSourceEpisodeIds : List String
  supportCountIncrement : Int
deriving DecidableEq, Repr

/-- Interface `ConflictFromClaude` (the description field is unused by the write
path). -/
structure ConflictFromClaude where
  ruleId : String
  conflictingEpisodeId : String
deriving DecidableEq, Repr

/-- Interface `DistillationResult`: the parsed synthesis response. -/
structure DistillationResult where
  newRules : List NewRuleFromClaude
  updatedRules : List UpdatedRuleFromClaude
  conflicts : List ConflictFromClaude
deriving DecidableEq, Repr

/-- One store write staged by `runDistillation`; each constructor mirrors
one of the `txs.push(db.tx....update({...}))` shapes. -/
inductive DistillTx where
  | createRule (ruleId content scope : String) (scopeQualifier : Option String)
      (category : String) (tags : List String) (confidence : ℚ)
      (sourceEpisodeIds : List String) (supportCount : Int) (active : Bool)
  | updateRule (ruleId : String) (confidence : ℚ)
      (sourceEpisodeIds : List String) (supportCount : Int)
  | penalizeRule (ruleId : String) (confidence : ℚ)
  | markDistilled (episodeId : String)
deriving DecidableEq, Repr

def MIN_BATCH_SIZE : Nat := 3

/-- The new-rule write (lines 156–176): confidence is
`Math.min(newRule.confidence, 0.95)`. -/
def newRuleTx (genId : Nat → String) (i : Nat)
    (nr : NewRuleFromClaude) : DistillTx :=
  .createRule (genId i) nr.content nr.scope nr.scopeQualifier nr.category
    nr.tags (min nr.confidence ((95 : ℚ)/100)) nr.sourceEpisodeIds
    nr.supportCount true

/-- The update write (lines 179–203): unknown rule ids are skipped; source
episode ids are merged as a set (first occurrences kept, as JS `Set`
insertion order); confidence is
`Math.min(existing.confidence + delta, 0.95)`. -/
def updateRuleTx (existingRules : List DRule)
    (u : UpdatedRuleFromClaude) : Option DistillTx :=
  match existingRules.find? (fun r => r.id == u.ruleId) with
  | none => none
  | some existing =>
    some (.updateRule existing.id
      (min (existing.confidence + u.confidenceDelta) ((95 : ℚ)/100))
      ((existing.sourceEpisodeIds ++ u.newSourceEpisodeIds).eraseDups)
      (existing.supportCount + u.supportCountIncrement))

/-- The conflict write (lines 206–226): unknown rule ids are skipped;
confidence is `Math.max(existing.confidence - 0.2, 0.1)`. -/
def conflictTx (existingRules : List DRule)
    (c : ConflictFromClaude) : Option DistillTx :=
  match existingRules.find? (fun r => r.id == c.ruleId) with
  | none => none
  | some existing =>
    some (.penalizeRule existing.id
      (max (existing.confidence - (2 : ℚ)/10) ((1 : ℚ)/10)))

/-- Function `runDistillation` (lines 66–243) as a function from the store snapshot
and the synthesis-call outcome to (episodes processed, staged writes).
`response` is the text returned by `callClaudeForDistillation` (null on
failure); `parse` is `JSON.parse` specialised to `DistillationResult`
(`none` models a thrown parse error). -/
def runDistillation (episodes : List DEpisode) (existingRules : List DRule)
    (response : Option String)
    (parse : String → Option DistillationResult)
    (genId : Nat → String) : Nat × List DistillTx :=
  if episodes.length < MIN_BATCH_SIZE then (0, [])
  else
    match response with
    | none => (0, [])
    | some text =>
      match parse text with
      | none => (0, [])
      | some result =>
        let txs :=
          (result.newRules.enum.map fun p => newRuleTx genId p.1 p.2) ++
          result.updatedRules.filterMap (updateRuleTx existingRules) ++
          result.conflicts.filterMap (conflictTx existingRules) ++
          episodes.map (fun ep => .markDistilled ep.id)
        (episodes.length, txs)

/-- The confidence value a staged write would store, if it writes one. -/
def txStoredConfidence : DistillTx → Option ℚ
  | .createRule _ _ _ _ _ _ confidence _ _ _ => some confidence
  | .updateRule _ confidence _ _ => some confidence
  | .penalizeRule _ confidence => some confidence
  | .markDistilled _ => none

/-- Whether a staged write is a conflict confidence penalty. -/
def isPenaltyTx : DistillTx → Bool
  | .penalizeRule _ _ => true
  | _ => false

/-! ## Task Queue Coordinator claim (`action-executor.ts`)

`claimAction(actionId)` issues
`db.transact(db.tx.actions[actionId].update({status: "in_progress",
startedAt: Date.now()}))` and returns `true` unless the transact call
throws (caught and turned into `false`).  The update carries no condition
on the current status of the task and no post-write verification; whether the
transact throws is independent of the status of the record, so it is passed in
as the `transactThrows` parameter. -/

/-- The task-record fields touched by the claim protocol. -/
structure TaskRec where
  id : String
  status : String
  startedAt : Option Nat
deriving DecidableEq, Repr

/-- Function `claimAction` from `action-executor.ts` acting on the task record it
targets: an unconditional update, returning whether the claim "succeeded".
The result is `(claimed, updated record)`. -/
def claimAction (transactThrows : Bool) (now : Nat) (t : TaskRec) :
    Bool × TaskRec :=
  if transactThrows then (false, t)
  else (true, { t with status := "in_progress", startedAt := some now })

/-! ## Episode Recorder (`voice-listener/src/episode-recorder.ts`)

`generateEpisode` (one synthesis call) is abstracted to its parsed outcome
(`none` models every failure path: missing API key, HTTP error, missing
text block, thrown `JSON.parse`); `JSON.parse` of the stored thread
messages is a parameter.  The store writes of `processAction` are reified. -/

/-- The action fields read by the episode recorder. -/
structure RecorderAction where
  id : String
  type : String
  subtype : Option String
  title : String
  description : Option String
  projectPath : Option String
  result : Option String
  rating : Option Nat
  ratingTags : Option String
  ratingComment : Option String
  messages : Option String
  episodesGenerated : Option Bool
deriving DecidableEq, Repr

/-- A message of the stored conversation thread. -/
structure ThreadMessage where
  role : String
  content : String
deriving DecidableEq, Repr

/-- Interface `EpisodeFromClaude`: the parsed synthesis response. -/
structure EpisodeFromClaude where
  shouldCapture : Bool
  narrative : String
  feedbackType : String
  projectType : Option String
  workContext : Option String
  tags : List String
  skipReason : Option String
deriving DecidableEq, Repr

/-- One store write staged by `processAction`. -/
inductive RecorderTx where
  | createEpisode (episodeId narrative feedbackType : String)
      (projectType projectPath workContext : Option String)
      (userInput : String) (tags : List String) (distilled : Bool)
      (sourceType : String) (sourceActionId : String)
  | linkEpisode (episodeId actionId : String)
  | markProcessed (actionId : String) (episodesGenerated : Bool)
deriving DecidableEq, Repr

/-- Function `extractUserFeedback(messagesJson)`: the user-authored messages of the
thread, formatted one per line; empty on missing or unparseable JSON. -/
def extractUserFeedback (parseMessages : String → Option (List ThreadMessage))
    (messagesJson : Option String) : String :=
  match messagesJson with
  | none => ""
  | some j =>
    match parseMessages j with
    | none => ""
    | some msgs =>
      let userMessages := msgs.filter (fun m => m.role == "user")
      if userMessages.isEmpty then ""
      else
        String.intercalate "\n"
          (userMessages.map (fun m => "User: " ++ m.content))

/-- JS truthiness of `rating` (`number | undefined`; 0 is falsy). -/
def ratingTruthy : Option Nat → Bool
  | none => false
  | some n => !(n == 0)

/-- Function `processAction(action)` from `episode-recorder.ts`, given the parsed
outcome of `generateEpisode` (`none` when the synthesis call failed) and
the fresh episode id: the list of store writes performed. -/
def processAction (parseMessages : String → Option (List ThreadMessage))
    (a : RecorderAction) (episode : Option EpisodeFromClaude)
    (episodeId : String) : List RecorderTx :=
  match episode with
  | none => []
  | some ep =>
    if !ep.shouldCapture then [.markProcessed a.id true]
    else
      let fromThread := extractUserFeedback parseMessages a.messages
      let userInput :=
        (String.intercalate "\n"
          (([a.ratingComment.getD "", fromThread].filter
            (fun s => !(s == ""))))).trim
      let storedInput :=
        if !(userInput == "") then userInput
        else if !(a.ratingComment.getD "" == "") then a.ratingComment.getD ""
        else "(no direct input)"
      [.createEpisode episodeId ep.narrative ep.feedbackType ep.projectType
         a.projectPath ep.workContext storedInput ep.tags false
         (if ratingTruthy a.rating then "rating" else "thread") a.id,
       .linkEpisode episodeId a.id,
       .markProcessed a.id true]

/-- Count of episode-creation writes in a staged batch. -/
def countEpisodeCreates (txs : List RecorderTx) : Nat :=
  (txs.filter fun tx =>
    match tx with
    | .createEpisode _ _ _ _ _ _ _ _ _ _ _ => true
    | _ => false).length

/-! ## Idea Workflow State Machine (`idea-processor.ts`, app feed screen)

The multi-turn workflow over an idea action.  The app-side feedback
submission (`handleSubmitFeedback` in the feed screen, reachable only for
ideas whose `longrunStatus` is `awaiting_feedback`), the coordinator
routing (`processIdea`), and the two phases of `processFeedback` (the
reset-and-rerun update, then the outcome update after the agent exits) are
embedded as record transformations.  The agent subprocess is abstracted to
its exit code, stderr and the regex/`JSON.parse` outcomes used by
`parseLongrunOutput`.  An update field set to JS `undefined` is modelled as
clearing the field to `none`. -/

/-- The idea-action fields touched by the workflow. -/
structure IdeaAction where
  id : String
  type : String
  title : String
  description : Option String
  status : String
  longrunStatus : Option String
  longrunEpicId : Option String
  assumptions : Option String
  variants : Option String
  selectedVariant : Option Nat
  userFeedback : Option String
  startedAt : Option Nat
  completedAt : Option Nat
  result : Option String
  errorMessage : Option String
deriving DecidableEq, Repr

/-- Interface `LongrunOutput`: the structured trailing block of the agent output.
The `assumptions`/`variants` payloads are kept in their (re-)serialized
string form, since only their presence matters to the workflow. -/
structure LongrunOutput where
  assumptions : Option String
  variants : Option String
  implemented : Option Nat
  epicId : Option String
deriving DecidableEq, Repr

/-- The `{}` default of `parseLongrunOutput`. -/
def emptyLongrun : LongrunOutput :=
  { assumptions := none, variants := none, implemented := none,
    epicId := none }

/-- The fallback branch of `parseLongrunOutput`: scan the full output for
any object containing an `assumptions`/`variants` key (`objectMatch` is
the result of that regex) and try to parse it, else return `{}`. -/
def parseLongrunFallback (jsonParse : String → Option LongrunOutput)
    (objectMatch : Option String) : LongrunOutput :=
  match objectMatch with
  | some s =>
    match jsonParse s with
    | some out => out
    | none => emptyLongrun
  | none => emptyLongrun

/-- Function `parseLongrunOutput(output)` from `idea-processor.ts`: prefer the
trailing ```json block (`blockMatch` is the captured group of that regex), fall
back to the loose object scan, default to `{}`; never throws. -/
def parseLongrunOutput (jsonParse : String → Option LongrunOutput)
    (blockMatch objectMatch : Option String) : LongrunOutput :=
  match blockMatch with
  | some s =>
    match jsonParse s with
    | some out => out
    | none => parseLongrunFallback jsonParse objectMatch
  | none => parseLongrunFallback jsonParse objectMatch

/-- Function `handleSubmitFeedback` from the app feed screen: save the feedback and
mark the idea for re-processing. -/
def handleSubmitFeedback (feedback : String) (a : IdeaAction) : IdeaAction :=
  { a with userFeedback := some feedback,
           longrunStatus := some "pending_feedback", status := "pending" }

/-- The routing decision at the top of `processIdea`. -/
inductive IdeaRoute where
  | variantSelection (variantIndex : Nat)
  | feedback (userFeedback : String)
  | freshIdea
deriving DecidableEq, Repr

/-- The dispatch of `processIdea`: `pending_variant` with a selected variant
goes to the variant handler, `pending_feedback` with truthy feedback goes
to the feedback handler, anything else is processed from scratch. -/
def routeIdea (a : IdeaAction) : IdeaRoute :=
  if a.longrunStatus == some "pending_variant" && !(a.selectedVariant == none)
  then .variantSelection (a.selectedVariant.getD 0)
  else if a.longrunStatus == some "pending_feedback" &&
      strTruthy a.userFeedback
  then .feedback (a.userFeedback.getD "")
  else .freshIdea

/-- The first update of `processFeedback`: save feedback and reset for
reprocessing (`longrunStatus: "running"`, `status: "in_progress"`,
`startedAt: Date.now()`, clearing `completedAt`/`result`/`errorMessage`). -/
def processFeedbackStart (feedback : String) (now : Nat)
    (a : IdeaAction) : IdeaAction :=
  { a with userFeedback := some feedback,
           longrunStatus := some "running", status := "in_progress",
           startedAt := some now, completedAt := none, result := none,
           errorMessage := none }

/-- The truncated error message written on a non-zero agent exit. -/
def exitErrMsg (exitCode : Int) (stderr : String) : String :=
  "Claude exited with code " ++ toString exitCode ++ ": " ++
    (stderr.take 500)

/-- The second update of `processFeedback`, after the agent subprocess
exits: failure marks the idea failed; success re-enters
`awaiting_feedback` with the parsed structured block stored
(`userFeedback` is not touched). -/
def processFeedbackOnExit (exitCode : Int) (stderr : String)
    (jsonParse : String → Option LongrunOutput)
    (blockMatch objectMatch : Option String) (now : Nat)
    (a : IdeaAction) : IdeaAction :=
  if exitCode != 0 then
    { a with longrunStatus := some "failed", status := "failed",
             errorMessage := some (exitErrMsg exitCode stderr),
             completedAt := some now }
  else
    let parsed := parseLongrunOutput jsonParse blockMatch objectMatch
    { a with longrunStatus := some "awaiting_feedback",
             status := "completed",
             assumptions := parsed.assumptions,
             variants := parsed.variants,
             longrunEpicId := parsed.epicId,
             result := some "Feedback incorporated. Iteration complete.",
             completedAt := some now }

end Exec

/-- C6: `classifyError` applies a fixed precedence where the first match wins:
explicit cancellation → cancelled; exit code 124 or a timeout message →
timeout; exit code 137 or a memory-exhaustion message → oom; rate-limit
phrases → rate_limit; permission-denied phrases → permission_denied;
dependency/not-found phrases → dependency_error; any other non-zero exit →
crash with low confidence; zero exit with no matching signal → unknown. -/
theorem Exec.classifyError_precedence (exitCode : Int) (stderr : String)
    (wasCancelled : Bool) :
    (wasCancelled = true →
      classifyError exitCode stderr wasCancelled = (.cancelled, .high)) ∧
    (wasCancelled = false →
      timeoutSignal exitCode (lowerStr stderr) = true →
      classifyError exitCode stderr wasCancelled = (.timeout, .high)) ∧
    (wasCancelled = false →
      timeoutSignal exitCode (lowerStr stderr) = false →
      oomSignal exitCode (lowerStr stderr) = true →
      classifyError exitCode stderr wasCancelled = (.oom, .high)) ∧
    (wasCancelled = false →
      timeoutSignal exitCode (lowerStr stderr) = false →
      oomSignal exitCode (lowerStr stderr) = false →
      rateLimitSignal (lowerStr stderr) = true →
      classifyError exitCode stderr wasCancelled = (.rate_limit, .high)) ∧
    (wasCancelled = false →
      timeoutSignal exitCode (lowerStr stderr) = false →
      oomSignal exitCode (lowerStr stderr) = false →
      rateLimitSignal (lowerStr stderr) = false →
      permissionSignal (lowerStr stderr) = true →
      classifyError exitCode stderr wasCancelled = (.permission_denied, .high)) ∧
    (wasCancelled = false →
      timeoutSignal exitCode (lowerStr stderr) = false →
      oomSignal exitCode (lowerStr stderr) = false →
      rateLimitSignal (lowerStr stderr) = false →
      permissionSignal (lowerStr stderr) = false →
      dependencySignal (lowerStr stderr) = true →
      classifyError exitCode stderr wasCancelled = (.dependency_error, .medium)) ∧
    (wasCancelled = false →
      timeoutSignal exitCode (lowerStr stderr) = false →
      oomSignal exitCode (lowerStr stderr) = false →
      rateLimitSignal (lowerStr stderr) = false →
      permissionSignal (lowerStr stderr) = false →
      dependencySignal (lowerStr stderr) = false →
      exitCode ≠ 0 →
      classifyError exitCode stderr wasCancelled = (.crash, .low)) ∧
    (wasCancelled = false →
      timeoutSignal exitCode (lowerStr stderr) = false →
      oomSignal exitCode (lowerStr stderr) = false →
      rateLimitSignal (lowerStr stderr) = false →
      permissionSignal (lowerStr stderr) = false →
      dependencySignal (lowerStr stderr) = false →
      exitCode = 0 →
      classifyError exitCode stderr wasCancelled = (.unknown, .low)) := by
  refine ⟨?_, ?_, ?_, ?_, ?_, ?_, ?_, ?_⟩ <;>
    intros <;> simp_all [classifyError]

/-- Witness for C6: a cancelled run, a timeout exit code, and a plain
non-zero exit, each classified by applying `classifyError_precedence` at a
concrete input. -/
theorem Exec.classifyError_precedence_witness :
    Exec.classifyError 1 "segfault" true = (.cancelled, .high) ∧
    Exec.classifyError 124 "" false = (.timeout, .high) ∧
    Exec.classifyError 1 "bad exit" false = (.crash, .low) :=
  ⟨(Exec.classifyError_precedence 1 "segfault" true).1 rfl,
   (Exec.classifyError_precedence 124 "" false).2.1 rfl (by decide),
   (Exec.classifyError_precedence 1 "bad exit" false).2.2.2.2.2.2.1 rfl
     (by decide) (by decide) (by decide) (by decide) (by decide) (by decide)⟩

/-- C3 counterexample: the claim says the always-simple task types are
decided before the text rules, so `type="Research"` with `description=""`
would be simple for every title; but `analyzeScope` tests the
conjunctive-deliverables patterns first, and the title
`"x and y and z"` alone (matching `/\band\b.*\band\b/i`) forces complex. -/
theorem Exec.analyzeScope_research_not_always_simple :
    Exec.analyzeScope "Research" none "x and y and z" (some "") =
      Exec.TaskScope.complex ∧
    Exec.analyzeScope "Research" none "x and y and z" (some "") ≠
      Exec.TaskScope.simple := by
  refine ⟨by decide, by decide⟩

/-- C3 (amended): `analyzeScope` is a deterministic pure function of
(type, subtype, title, description) evaluating rules in fixed order:
type "Project" is always complex; then multi-phase free text forces
complex; then description length over 500 characters forces complex; then a
conjunctive-deliverables pattern match — alone, not as one of two moderate
signals — forces complex; only when no force-complex rule fired are the
always-simple types "Research", "Write", "UserTask" (and short CodeChange
bug fixes) decided simple; otherwise at least 2 moderate signals
(feature-subtype with description over 150 characters, orchestration
vocabulary, description length over 300) force complex, else simple.  In
particular, type="Research" with description="" yields simple only for
titles matching no force-complex text pattern. -/
theorem Exec.analyzeScope_order (ty : String) (st : Option String)
    (title : String) (d : Option String) :
    (ty = "Project" → Exec.analyzeScope ty st title d = .complex) ∧
    (Exec.multiPhaseHit (Exec.textOf title d) = true →
      Exec.analyzeScope ty st title d = .complex) ∧
    ((d.getD "").length > 500 → Exec.analyzeScope ty st title d = .complex) ∧
    (Exec.deliverablesHit (Exec.textOf title d) = true →
      Exec.analyzeScope ty st title d = .complex) ∧
    (Exec.multiPhaseHit (Exec.textOf title d) = false →
      (d.getD "").length ≤ 500 →
      Exec.deliverablesHit (Exec.textOf title d) = false →
      (ty = "Research" ∨ ty = "Write" ∨ ty = "UserTask") →
      Exec.analyzeScope ty st title d = .simple) ∧
    (Exec.multiPhaseHit (Exec.textOf title d) = false →
      (d.getD "").length ≤ 500 →
      Exec.deliverablesHit (Exec.textOf title d) = false →
      ty ≠ "Project" → ty ≠ "Research" → ty ≠ "Write" → ty ≠ "UserTask" →
      ¬(ty = "CodeChange" ∧ st = some "bug" ∧ (d.getD "").length < 200) →
      Exec.analyzeScope ty st title d =
        (if Exec.moderateSignals ty st title d ≥ 2 then .complex
         else .simple)) := by
  have h500 : ∀ h : (d.getD "").length ≤ 500,
      ¬((d.getD "").length > 500) := fun h => by omega
  refine ⟨?_, ?_, ?_, ?_, ?_, ?_⟩
  · intro h; subst h; simp [Exec.analyzeScope]
  · intro h; simp [Exec.analyzeScope, h]
  · intro h; simp [Exec.analyzeScope, h]
  · intro h; simp [Exec.analyzeScope, h]
  · intro hm hl hd hty
    rcases hty with h | h | h <;> subst h <;>
      simp [Exec.analyzeScope, hm, hd, h500 hl]
  · intro hm hl hd h1 h2 h3 h4 h5
    have hbb : (ty == "CodeChange" && st == some "bug" &&
        decide ((d.getD "").length < 200)) = false := by
      by_cases hcc : ty = "CodeChange"
      · by_cases hbug : st = some "bug"
        · have hlen : ¬((d.getD "").length < 200) :=
            fun h => h5 ⟨hcc, hbug, h⟩
          simp [hcc, hbug, hlen]
        · simp [hcc, hbug]
      · simp [hcc]
    simp [Exec.analyzeScope, hm, hd, h500 hl, h1, h2, h3, h4, hbb]

/-- Witness for C3 (amended): a Project task is complex regardless of
description, and a plain Research task with empty description is simple,
both by applying `analyzeScope_order` at concrete inputs. -/
theorem Exec.analyzeScope_order_witness :
    Exec.analyzeScope "Project" none "t" none = .complex ∧
    Exec.analyzeScope "Research" none "summarize this paper" (some "") =
      .simple :=
  ⟨(Exec.analyzeScope_order "Project" none "t" none).1 rfl,
   (Exec.analyzeScope_order "Research" none "summarize this paper"
       (some "")).2.2.2.2.1 (by decide) (by decide) (by decide)
     (Or.inl rfl)⟩

/-- Helper: an included rule with global scope passed the 0.7 confidence
threshold. -/
theorem Exec.includeRule_global {pt pp : Option String} {r : Exec.StoreRule}
    (hs : r.scope = "global") (h : Exec.includeRule pt pp r = true) :
    (7 : ℚ)/10 ≤ r.confidence := by
  by_cases hc : (7 : ℚ)/10 ≤ r.confidence
  · exact hc
  · simp [Exec.includeRule, hs, hc] at h

/-- Helper: an included rule with project-type scope passed the 0.5
confidence threshold and its qualifier equals the inferred project type. -/
theorem Exec.includeRule_projectType {pt pp : Option String}
    {r : Exec.StoreRule} (hs : r.scope = "project-type")
    (h : Exec.includeRule pt pp r = true) :
    (5 : ℚ)/10 ≤ r.confidence ∧
      ∃ t, pt = some t ∧ t ≠ "" ∧ r.scopeQualifier = some t := by
  by_cases hc : (5 : ℚ)/10 ≤ r.confidence
  · refine ⟨hc, ?_⟩
    simp [Exec.includeRule, hs, hc] at h
    match pt, h with
    | some t, ⟨ht, hq⟩ =>
      exact ⟨t, rfl, by simpa [Exec.strTruthy] using ht, by simpa using hq⟩
  · simp [Exec.includeRule, hs, hc] at h

/-- Helper: the comparator `ruleDesc` is transitive. -/
theorem Exec.ruleDesc_trans (a b c : Exec.StoreRule) :
    Exec.ruleDesc a b → Exec.ruleDesc b c → Exec.ruleDesc a c := by
  simp only [Exec.ruleDesc, decide_eq_true_eq]
  exact fun h1 h2 => le_trans h2 h1

/-- Helper: the comparator `ruleDesc` is total. -/
theorem Exec.ruleDesc_total (a b : Exec.StoreRule) :
    Exec.ruleDesc a b || Exec.ruleDesc b a := by
  simp only [Exec.ruleDesc, Bool.or_eq_true, decide_eq_true_eq]
  exact le_total b.confidence a.confidence

/-- C7: for every input, the Rule Selector returns at most 15 rules, sorted
by descending confidence; it never returns a global rule below 0.7
confidence, never a project-type rule below 0.5 confidence, and never a
project-type rule whose scope qualifier differs from the inferred project
type. -/
theorem Exec.selectRelevantRules_bounds (allRules : List Exec.StoreRule)
    (pt pp : Option String) :
    (Exec.selectRelevantRules allRules pt pp).length ≤ Exec.MAX_RULES ∧
    (Exec.selectedRules allRules pt pp).Pairwise
      (fun a b => b.confidence ≤ a.confidence) ∧
    (∀ r ∈ Exec.selectedRules allRules pt pp,
      (r.scope = "global" → (7 : ℚ)/10 ≤ r.confidence) ∧
      (r.scope = "project-type" →
        (5 : ℚ)/10 ≤ r.confidence ∧
          ∃ t, pt = some t ∧ t ≠ "" ∧ r.scopeQualifier = some t)) := by
  refine ⟨?_, ?_, ?_⟩
  · calc (Exec.selectRelevantRules allRules pt pp).length
        = (Exec.selectedRules allRules pt pp).length := List.length_map _ _
      _ ≤ Exec.MAX_RULES := by
          simp only [Exec.selectedRules, List.length_take]
          exact min_le_left _ _
  · have hs : (((Exec.matchedRules allRules pt pp).mergeSort
        Exec.ruleDesc)).Pairwise (fun a b => Exec.ruleDesc a b) :=
      List.sorted_mergeSort
        (fun a b c => Exec.ruleDesc_trans a b c)
        (fun a b => Exec.ruleDesc_total a b)
        (Exec.matchedRules allRules pt pp)
    have ht := hs.sublist (List.take_sublist Exec.MAX_RULES _)
    exact ht.imp fun h => by simpa [Exec.ruleDesc] using h
  · intro r hr
    have hmem : r ∈ Exec.matchedRules allRules pt pp := by
      have h1 : r ∈ ((Exec.matchedRules allRules pt pp).mergeSort
          Exec.ruleDesc) := List.take_subset _ _ hr
      exact (List.mem_mergeSort).1 h1
    have hinc : Exec.includeRule pt pp r = true :=
      (List.mem_filter.1 hmem).2
    exact ⟨fun hs => Exec.includeRule_global hs hinc,
      fun hs => Exec.includeRule_projectType hs hinc⟩

/-- Witness for C7: a singleton store with one high-confidence global rule;
`selectRelevantRules_bounds` applied there bounds the selection and yields
the 0.7 lower bound at the selected rule. -/
theorem Exec.selectRelevantRules_bounds_witness :
    (Exec.selectRelevantRules
        [{ id := "r1", content := "use earth tones", scope := "global",
           scopeQualifier := none, category := "design",
           confidence := (9 : ℚ)/10, active := true,
           conflictsWith := none }] none none).length ≤ Exec.MAX_RULES ∧
    (7 : ℚ)/10 ≤ (9 : ℚ)/10 :=
  ⟨(Exec.selectRelevantRules_bounds
      [{ id := "r1", content := "use earth tones", scope := "global",
         scopeQualifier := none, category := "design",
         confidence := (9 : ℚ)/10, active := true,
         conflictsWith := none }] none none).1,
   (((Exec.selectRelevantRules_bounds
      [{ id := "r1", content := "use earth tones", scope := "global",
         scopeQualifier := none, category := "design",
         confidence := (9 : ℚ)/10, active := true,
         conflictsWith := none }] none none).2.2
      { id := "r1", content := "use earth tones", scope := "global",
        scopeQualifier := none, category := "design",
        confidence := (9 : ℚ)/10, active := true,
        conflictsWith := none }
      (by
        have hinc : Exec.includeRule none none
            { id := "r1", content := "use earth tones", scope := "global",
              scopeQualifier := none, category := "design",
              confidence := (9 : ℚ)/10, active := true,
              conflictsWith := none } = true := by
          simp [Exec.includeRule]
          norm_num
        simp [Exec.selectedRules, Exec.matchedRules, hinc,
          Exec.MAX_RULES])).1 rfl)⟩

/-- C9: rules with scope `project-specific` are subject to no confidence
threshold: every active project-specific rule whose qualifier equals the
supplied (non-empty) project path is in the matched set, however low its
confidence. -/
theorem Exec.projectSpecific_no_threshold (allRules : List Exec.StoreRule)
    (pt pp : Option String) (p : String) (r : Exec.StoreRule)
    (hpp : pp = some p) (hp : p ≠ "") (ha : r.active = true)
    (hs : r.scope = "project-specific") (hq : r.scopeQualifier = some p)
    (hmem : r ∈ allRules) :
    r ∈ Exec.matchedRules allRules pt pp := by
  refine List.mem_filter.2 ⟨List.mem_filter.2 ⟨hmem, ha⟩, ?_⟩
  simp [Exec.includeRule, hs, hq, hpp, Exec.strTruthy, hp]

/-- Witness for C9: a project-specific rule with confidence 0.01 is matched
when the supplied path equals its qualifier, by
`projectSpecific_no_threshold` at a concrete store. -/
theorem Exec.projectSpecific_no_threshold_witness :
    ({ id := "r2", content := "always use bun", scope := "project-specific",
       scopeQualifier := some "apps/mic", category := "tooling",
       confidence := (1 : ℚ)/100, active := true,
       conflictsWith := none } : Exec.StoreRule) ∈
      Exec.matchedRules
        [{ id := "r2", content := "always use bun",
           scope := "project-specific", scopeQualifier := some "apps/mic",
           category := "tooling", confidence := (1 : ℚ)/100, active := true,
           conflictsWith := none }] none (some "apps/mic") :=
  Exec.projectSpecific_no_threshold _ none (some "apps/mic") "apps/mic" _
    rfl (by decide) rfl rfl rfl (List.mem_singleton.2 rfl)

/-- C4 counterexample: with a project path supplied but yielding no
directory signal (`inferProjectType` returns null, e.g. a nonexistent
directory), `selectRelevantRules` falls through to the free-text heuristics
in the same call — both inference sources are consulted, contradicting
"never both" and "free-text only when no path is given". -/
theorem Exec.determineProjectType_both_sources :
    (Exec.determineProjectType (fun _ => none) (fun _ _ _ => some "api")
        "bug" "fix login" none (some "proj")).usedPathSignals = true ∧
    (Exec.determineProjectType (fun _ => none) (fun _ _ _ => some "api")
        "bug" "fix login" none (some "proj")).usedTextHeuristics = true ∧
    (Exec.determineProjectType (fun _ => none) (fun _ _ _ => some "api")
        "bug" "fix login" none (some "proj")).result = some "api" :=
  ⟨rfl, rfl, rfl⟩

/-- C4 (amended): the project-type tag is inferred directory-first — if a
(non-empty) project path is given, directory signals are consulted first
and a non-empty result wins with the free-text heuristics never invoked;
the free-text heuristics over the own fields of the task are consulted exactly
when no path is given or when the directory signals yield nothing, so the
two sources are both consulted within one call precisely in the
path-given-but-no-signal case. -/
theorem Exec.determineProjectType_precedence
    (inferFromPath : String → Option String)
    (inferFromAction : String → String → Option String → Option String)
    (actionType actionTitle : String) (actionDescription : Option String)
    (projectPath : Option String) :
    (projectPath = none →
      Exec.determineProjectType inferFromPath inferFromAction actionType
          actionTitle actionDescription projectPath =
        { result := inferFromAction actionType actionTitle actionDescription,
          usedPathSignals := false, usedTextHeuristics := true }) ∧
    (∀ p, projectPath = some p → p ≠ "" →
      Exec.strTruthy (inferFromPath p) = true →
      Exec.determineProjectType inferFromPath inferFromAction actionType
          actionTitle actionDescription projectPath =
        { result := inferFromPath p, usedPathSignals := true,
          usedTextHeuristics := false }) ∧
    (∀ p, projectPath = some p → p ≠ "" →
      Exec.strTruthy (inferFromPath p) = false →
      Exec.determineProjectType inferFromPath inferFromAction actionType
          actionTitle actionDescription projectPath =
        { result := inferFromAction actionType actionTitle actionDescription,
          usedPathSignals := true, usedTextHeuristics := true }) := by
  refine ⟨?_, ?_, ?_⟩
  · intro h; subst h
    simp [Exec.determineProjectType, Exec.strTruthy]
  · intro p hpp hp ht; subst hpp
    cases hfp : inferFromPath p with
    | none => rw [hfp] at ht; simp [Exec.strTruthy] at ht
    | some t =>
      rw [hfp] at ht
      have htne : t ≠ "" := by simpa [Exec.strTruthy] using ht
      simp [Exec.determineProjectType, Exec.strTruthy, hp, hfp, htne]
  · intro p hpp hp ht; subst hpp
    cases hfp : inferFromPath p with
    | none => simp [Exec.determineProjectType, Exec.strTruthy, hp, hfp]
    | some t =>
      rw [hfp] at ht
      have hte : t = "" := by simpa [Exec.strTruthy] using ht
      subst hte
      simp [Exec.determineProjectType, Exec.strTruthy, hp, hfp]

/-- Witness for C4 (amended): with a path whose directory signals say
"mobile-app", the result is directory-first and the text heuristics are not
consulted, by `determineProjectType_precedence` at concrete inputs. -/
theorem Exec.determineProjectType_precedence_witness :
    Exec.determineProjectType (fun _ => some "mobile-app")
        (fun _ _ _ => some "api") "feature" "add push" none (some "proj") =
      { result := some "mobile-app", usedPathSignals := true,
        usedTextHeuristics := false } :=
  (Exec.determineProjectType_precedence (fun _ => some "mobile-app")
      (fun _ _ _ => some "api") "feature" "add push" none
      (some "proj")).2.1 "proj" rfl (by decide) (by decide)

/-- Three undistilled episodes (a minimal batch for `runDistillation`). -/
def sampleEpisodes : List Exec.DEpisode :=
  [{ id := "e1", narrative := "n1", feedbackType := "approval" },
   { id := "e2", narrative := "n2", feedbackType := "approval" },
   { id := "e3", narrative := "n3", feedbackType := "approval" }]

/-- A synthesis response proposing a new rule with confidence 0.05, below
the claimed 0.1 floor. -/
def underconfidentRule : Exec.NewRuleFromClaude :=
  { content := "low conviction rule", scope := "global",
    scopeQualifier := none, category := "design", tags := [],
    confidence := (1 : ℚ)/20, sourceEpisodeIds := ["e1"], supportCount := 1 }

/-- A synthesis response proposing a new rule with confidence 1.2, above
the 0.95 cap. -/
def overconfidentRule : Exec.NewRuleFromClaude :=
  { content := "use earth tones", scope := "project-type",
    scopeQualifier := some "landing-page", category := "design",
    tags := [], confidence := (12 : ℚ)/10,
    sourceEpisodeIds := ["e1", "e2", "e3"], supportCount := 3 }

/-- C2 counterexample: `runDistillation` stores the confidence of a new rule as
`Math.min(proposed, 0.95)` with no lower clamp, so a model-proposed
confidence of 0.05 is stored as 0.05, which is below 0.1 — the claimed
clamping to the interval [0.1, 0.95] fails on the lower side. -/
theorem Exec.distillation_stores_below_floor :
    (Exec.runDistillation sampleEpisodes [] (some "resp")
        (fun _ => some { newRules := [underconfidentRule],
                         updatedRules := [], conflicts := [] })
        (fun _ => "rule-1")).2 =
      [.createRule "rule-1" "low conviction rule" "global" none "design"
         [] ((1 : ℚ)/20) ["e1"] 1 true,
       .markDistilled "e1", .markDistilled "e2", .markDistilled "e3"] ∧
    ¬((1 : ℚ)/10 ≤ (1 : ℚ)/20) := by
  constructor
  · simp [Exec.runDistillation, Exec.MIN_BATCH_SIZE, sampleEpisodes,
      Exec.newRuleTx, underconfidentRule]
    norm_num
  · norm_num

/-- C2 (amended): every rule write staged by `runDistillation` caps the
stored confidence above at 0.95 — new rules store
`Math.min(proposed, 0.95)` and updates `Math.min(existing + delta, 0.95)`,
so a proposed 1.2 is stored as 0.95 — and conflict penalties are floored
at 0.1 (`Math.max(existing - 0.2, 0.1)`); but new-rule and update writes
have no lower clamp, so a proposed confidence (or a delta-driven value)
below 0.1 is stored verbatim. -/
theorem Exec.distillation_confidence_caps (episodes : List Exec.DEpisode)
    (existingRules : List Exec.DRule) (response : Option String)
    (parse : String → Option Exec.DistillationResult)
    (genId : Nat → String) :
    ∀ tx ∈ (Exec.runDistillation episodes existingRules response parse
        genId).2,
      ∀ q, Exec.txStoredConfidence tx = some q →
        (Exec.isPenaltyTx tx = false → q ≤ (95 : ℚ)/100) ∧
        (Exec.isPenaltyTx tx = true → (1 : ℚ)/10 ≤ q) := by
  intro tx htx q hq
  rw [Exec.runDistillation.eq_def] at htx
  split at htx
  · simp at htx
  · cases response with
    | none => simp at htx
    | some text =>
      cases hp : parse text with
      | none => simp [hp] at htx
      | some result =>
        simp only [hp, List.mem_append, List.mem_map,
          List.mem_filterMap] at htx
        rcases htx with ((⟨p, hmem, rfl⟩ | ⟨u, hu, heq⟩) | ⟨c, hc, heq⟩) |
          ⟨ep, hep, rfl⟩
        · refine ⟨fun _ => ?_, fun hpen => ?_⟩
          · rw [Exec.newRuleTx] at hq
            simp only [Exec.txStoredConfidence, Option.some.injEq] at hq
            exact hq ▸ min_le_right _ _
          · rw [Exec.newRuleTx] at hpen
            simp [Exec.isPenaltyTx] at hpen
        · rw [Exec.updateRuleTx] at heq
          cases hf : existingRules.find? (fun r => r.id == u.ruleId) with
          | none => rw [hf] at heq; exact absurd heq (by simp)
          | some existing =>
            rw [hf] at heq
            have htx2 := Option.some.inj heq
            subst htx2
            refine ⟨fun _ => ?_, fun hpen => ?_⟩
            · simp only [Exec.txStoredConfidence, Option.some.injEq] at hq
              exact hq ▸ min_le_right _ _
            · simp [Exec.isPenaltyTx] at hpen
        · rw [Exec.conflictTx] at heq
          cases hf : existingRules.find? (fun r => r.id == c.ruleId) with
          | none => rw [hf] at heq; exact absurd heq (by simp)
          | some existing =>
            rw [hf] at heq
            have htx2 := Option.some.inj heq
            subst htx2
            refine ⟨fun hpen => ?_, fun _ => ?_⟩
            · simp [Exec.isPenaltyTx] at hpen
            · simp only [Exec.txStoredConfidence, Option.some.injEq] at hq
              exact hq ▸ le_max_right _ _
        · simp [Exec.txStoredConfidence] at hq

/-- Witness for C2 (amended): a model-proposed confidence of 1.2 is stored
as `min 1.2 0.95 = 0.95`, and `distillation_confidence_caps` applied at
that concrete run bounds it by 0.95. -/
theorem Exec.distillation_confidence_caps_witness :
    min ((12 : ℚ)/10) ((95 : ℚ)/100) = (95 : ℚ)/100 ∧
    min ((12 : ℚ)/10) ((95 : ℚ)/100) ≤ (95 : ℚ)/100 :=
  ⟨by norm_num,
   ((Exec.distillation_confidence_caps sampleEpisodes [] (some "resp")
        (fun _ => some { newRules := [overconfidentRule],
                         updatedRules := [], conflicts := [] })
        (fun _ => "rule-9")
        (Exec.newRuleTx (fun _ => "rule-9") 0 overconfidentRule)
        (by
          simp [Exec.runDistillation, Exec.MIN_BATCH_SIZE, sampleEpisodes])
        (min ((12 : ℚ)/10) ((95 : ℚ)/100))
        rfl).1 rfl)⟩

/-- C10: when the distillation synthesis call returns no response, or a
response that fails to parse as JSON, `runDistillation` returns 0 and
stages no store writes: no rules created or updated, no confidence
penalty, no episode marked distilled — the whole undistilled batch is left
unchanged for a later run. -/
theorem Exec.distillation_no_writes_on_bad_response
    (episodes : List Exec.DEpisode) (existingRules : List Exec.DRule)
    (response : Option String)
    (parse : String → Option Exec.DistillationResult)
    (genId : Nat → String)
    (h : response = none ∨ ∀ s, response = some s → parse s = none) :
    Exec.runDistillation episodes existingRules response parse genId =
      (0, []) := by
  rcases h with h | h
  · subst h
    rw [Exec.runDistillation.eq_def]
    split
    · rfl
    · rfl
  · rw [Exec.runDistillation.eq_def]
    split
    · rfl
    · cases response with
      | none => rfl
      | some s => simp [h s rfl]

/-- Witness for C10: a null synthesis response on a 3-episode batch
produces no writes, by `distillation_no_writes_on_bad_response` at a
concrete input. -/
theorem Exec.distillation_no_writes_on_bad_response_witness :
    Exec.runDistillation sampleEpisodes [] none (fun _ => none)
      (fun _ => "rule-1") = (0, []) :=
  Exec.distillation_no_writes_on_bad_response sampleEpisodes [] none
    (fun _ => none) (fun _ => "rule-1") (Or.inl rfl)

/-- C1: evaluation at the failing input.  `claimAction` issues an
unconditional update and reports success whenever the store transaction
does not throw: a claim on a pending task succeeds, a second concurrent
claim on the same (now `in_progress`, no longer pending) task also
succeeds, and even a claim on a completed task succeeds — there is no
conditional update keyed on `pending` and no post-write verification, so
two concurrent claimers both "succeed" rather than exactly one. -/
theorem Exec.claimAction_unconditional :
    Exec.claimAction false 100
        { id := "a1", status := "pending", startedAt := none } =
      (true,
       { id := "a1", status := "in_progress", startedAt := some 100 }) ∧
    Exec.claimAction false 101
        { id := "a1", status := "in_progress", startedAt := some 100 } =
      (true,
       { id := "a1", status := "in_progress", startedAt := some 101 }) ∧
    Exec.claimAction false 102
        { id := "a1", status := "completed", startedAt := none } =
      (true,
       { id := "a1", status := "in_progress", startedAt := some 102 }) :=
  ⟨rfl, rfl, rfl⟩

/-- C8: on a non-capturable verdict from the synthesis call,
`processAction` stages exactly one write — marking the task processed
(`episodesGenerated: true`) — and creates zero Episode records. -/
theorem Exec.nonCapturable_marks_processed
    (parseMessages : String → Option (List Exec.ThreadMessage))
    (a : Exec.RecorderAction) (ep : Exec.EpisodeFromClaude)
    (episodeId : String) (h : ep.shouldCapture = false) :
    Exec.processAction parseMessages a (some ep) episodeId =
      [.markProcessed a.id true] ∧
    Exec.countEpisodeCreates
      (Exec.processAction parseMessages a (some ep) episodeId) = 0 := by
  have h1 : Exec.processAction parseMessages a (some ep) episodeId =
      [.markProcessed a.id true] := by
    simp [Exec.processAction, h]
  refine ⟨h1, ?_⟩
  rw [h1]
  simp [Exec.countEpisodeCreates]

/-- Witness for C8: a task rated 5 with tags `["perfect"]` and no thread
messages, judged non-capturable, ends marked processed with no episode
created, by `nonCapturable_marks_processed` at concrete inputs. -/
theorem Exec.nonCapturable_marks_processed_witness :
    Exec.processAction (fun _ => none)
        { id := "a7", type := "feature", subtype := none, title := "t",
          description := none, projectPath := none, result := none,
          rating := some 5, ratingTags := some "[\"perfect\"]",
          ratingComment := none, messages := none,
          episodesGenerated := none }
        (some { shouldCapture := false, narrative := "",
                feedbackType := "approval", projectType := none,
                workContext := none, tags := [],
                skipReason := some "not a reusable signal" })
        "ep1" = [.markProcessed "a7" true] :=
  (Exec.nonCapturable_marks_processed (fun _ => none)
      { id := "a7", type := "feature", subtype := none, title := "t",
        description := none, projectPath := none, result := none,
        rating := some 5, ratingTags := some "[\"perfect\"]",
        ratingComment := none, messages := none,
        episodesGenerated := none }
      { shouldCapture := false, narrative := "",
        feedbackType := "approval", projectType := none,
        workContext := none, tags := [],
        skipReason := some "not a reusable signal" }
      "ep1" rfl).1

/-- C5: submitting user feedback on an idea in `awaiting_feedback` moves it
through `pending_feedback` (routed to the feedback handler) to `running`
(resetting `startedAt` and clearing `result`/`errorMessage`), and on agent
success (exit code 0) the idea returns to `awaiting_feedback` with the
submitted `userFeedback` preserved; and `parseLongrunOutput` falls back to
the loose object scan whenever the trailing block is absent or malformed,
ultimately defaulting to empty structured data, never throwing or failing
the task over a parse mismatch (the success transition above holds for
every parse outcome). -/
theorem Exec.ideaFeedbackWorkflow (a : Exec.IdeaAction) (fb : String)
    (now now2 : Nat) (jsonParse : String → Option Exec.LongrunOutput)
    (blockMatch objectMatch : Option String)
    (hstate : a.longrunStatus = some "awaiting_feedback")
    (hfb : fb ≠ "") :
    (Exec.handleSubmitFeedback fb a).longrunStatus =
      some "pending_feedback" ∧
    (Exec.handleSubmitFeedback fb a).status = "pending" ∧
    Exec.routeIdea (Exec.handleSubmitFeedback fb a) = .feedback fb ∧
    (Exec.processFeedbackStart fb now
        (Exec.handleSubmitFeedback fb a)).longrunStatus = some "running" ∧
    (Exec.processFeedbackStart fb now
        (Exec.handleSubmitFeedback fb a)).status = "in_progress" ∧
    (Exec.processFeedbackStart fb now
        (Exec.handleSubmitFeedback fb a)).startedAt = some now ∧
    (Exec.processFeedbackStart fb now
        (Exec.handleSubmitFeedback fb a)).result = none ∧
    (Exec.processFeedbackStart fb now
        (Exec.handleSubmitFeedback fb a)).errorMessage = none ∧
    (Exec.processFeedbackOnExit 0 "" jsonParse blockMatch objectMatch now2
        (Exec.processFeedbackStart fb now
          (Exec.handleSubmitFeedback fb a))).longrunStatus =
      some "awaiting_feedback" ∧
    (Exec.processFeedbackOnExit 0 "" jsonParse blockMatch objectMatch now2
        (Exec.processFeedbackStart fb now
          (Exec.handleSubmitFeedback fb a))).status = "completed" ∧
    (Exec.processFeedbackOnExit 0 "" jsonParse blockMatch objectMatch now2
        (Exec.processFeedbackStart fb now
          (Exec.handleSubmitFeedback fb a))).userFeedback = some fb ∧
    ((blockMatch = none ∨ ∀ s, blockMatch = some s → jsonParse s = none) →
      Exec.parseLongrunOutput jsonParse blockMatch objectMatch =
        Exec.parseLongrunFallback jsonParse objectMatch) ∧
    ((blockMatch = none ∨ ∀ s, blockMatch = some s → jsonParse s = none) →
      (objectMatch = none ∨ ∀ s, objectMatch = some s → jsonParse s = none) →
      Exec.parseLongrunOutput jsonParse blockMatch objectMatch =
        Exec.emptyLongrun) := by
  have hfall :
      (blockMatch = none ∨ ∀ s, blockMatch = some s → jsonParse s = none) →
      Exec.parseLongrunOutput jsonParse blockMatch objectMatch =
        Exec.parseLongrunFallback jsonParse objectMatch := by
    intro h
    cases blockMatch with
    | none => rfl
    | some s =>
      rcases h with h | h
      · exact absurd h (by simp)
      · rw [Exec.parseLongrunOutput, h s rfl]
  refine ⟨rfl, rfl, ?_, rfl, rfl, rfl, rfl, rfl, ?_, ?_, ?_, hfall, ?_⟩
  · simp [Exec.routeIdea, Exec.handleSubmitFeedback, Exec.strTruthy, hfb]
  · simp [Exec.processFeedbackOnExit]
  · simp [Exec.processFeedbackOnExit]
  · simp [Exec.processFeedbackOnExit, Exec.processFeedbackStart,
      Exec.handleSubmitFeedback]
  · intro hb ho
    rw [hfall hb]
    cases objectMatch with
    | none => rfl
    | some s =>
      rcases ho with ho | ho
      · exact absurd ho (by simp)
      · rw [Exec.parseLongrunFallback, ho s rfl]

/-- Witness for C5: a concrete idea in `awaiting_feedback` receiving
feedback "make it blue", with an agent run whose trailing block is
malformed (`JSON.parse` fails on everything) — the workflow re-enters
`awaiting_feedback` preserving the feedback and the parse defaults to
empty structured data, by `ideaFeedbackWorkflow` at concrete inputs. -/
theorem Exec.ideaFeedbackWorkflow_witness :
    (Exec.processFeedbackOnExit 0 "" (fun _ => none) (some "junk") none 2
        (Exec.processFeedbackStart "make it blue" 1
          (Exec.handleSubmitFeedback "make it blue"
            { id := "i1", type := "idea", title := "an app",
              description := none, status := "completed",
              longrunStatus := some "awaiting_feedback",
              longrunEpicId := none, assumptions := none, variants := none,
              selectedVariant := none, userFeedback := none,
              startedAt := none, completedAt := none, result := none,
              errorMessage := none }))).userFeedback =
      some "make it blue" ∧
    Exec.parseLongrunOutput (fun _ => none) (some "junk") none =
      Exec.emptyLongrun :=
  ⟨(Exec.ideaFeedbackWorkflow
      { id := "i1", type := "idea", title := "an app",
        description := none, status := "completed",
        longrunStatus := some "awaiting_feedback", longrunEpicId := none,
        assumptions := none, variants := none, selectedVariant := none,
        userFeedback := none, startedAt := none, completedAt := none,
        result := none, errorMessage := none }
      "make it blue" 1 2 (fun _ => none) (some "junk") none rfl
      (by decide)).2.2.2.2.2.2.2.2.2.2.1,
   (Exec.ideaFeedbackWorkflow
      { id := "i1", type := "idea", title := "an app",
        description := none, status := "completed",
        longrunStatus := some "awaiting_feedback", longrunEpicId := none,
        assumptions := none, variants := none, selectedVariant := none,
        userFeedback := none, startedAt := none, completedAt := none,
        result := none, errorMessage := none }
      "make it blue" 1 2 (fun _ => none) (some "junk") none rfl
      (by decide)).2.2.2.2.2.2.2.2.2.2.2.2
     (Or.inr fun s _ => rfl) (Or.inl rfl)⟩
